import Mathlib

/-!
Verification development for the FarCaster repository (src/src/lib.rs and
src/src/bin/{client,server}.rs).

Bytes are modelled as `Nat` values (a `u8` holds a value below 256; the
embedding never needs the bound except where stated as a hypothesis).

The wire format of `CannonLauncher::send` is `bincode::serialize` of
`Option<FCPayload>` with bincode 1.x legacy options: fixed-width integers,
little-endian, `Vec` lengths as 8-byte `u64`, `Option` as a one-byte tag
(0 for `None`, 1 for `Some`), and trailing bytes allowed on deserialize.
-/

/-- Embedding of `struct FCPayload { descriptor: u8, payload: Vec<u8>, metadata: Vec<u8> }`
(src/src/lib.rs lines 21-26). -/
structure FCPayload where
  descriptor : Nat
  payload : List Nat
  metadata : List Nat
deriving DecidableEq, Repr

/-- Little-endian 8-byte (u64) encoding of a natural number, as bincode 1.x
writes a `Vec` length with its legacy fixed-int little-endian options. -/
def le64 (n : Nat) : List Nat :=
  [n % 256, n / 256 % 256, n / 256 ^ 2 % 256, n / 256 ^ 3 % 256,
   n / 256 ^ 4 % 256, n / 256 ^ 5 % 256, n / 256 ^ 6 % 256, n / 256 ^ 7 % 256]

/-- Value of a little-endian byte list. -/
def leVal (bs : List Nat) : Nat :=
  bs.foldr (fun b acc => b + 256 * acc) 0

/-- Read exactly `n` bytes from the front of a byte stream; fails (as bincode
deserialization fails with an unexpected-end error) when fewer are available. -/
def readBytes (n : Nat) (bs : List Nat) : Option (List Nat × List Nat) :=
  if n ≤ bs.length then some (bs.take n, bs.drop n) else none

/-- Read a u64 length field: 8 bytes, little-endian. -/
def readU64 (bs : List Nat) : Option (Nat × List Nat) :=
  match readBytes 8 bs with
  | some (w, rest) => some (leVal w, rest)
  | none => none

/-- Embedding of `bincode::serialize(&fc_payload)` for an `FCPayload` value:
descriptor byte, u64 payload length, payload bytes, u64 metadata length,
metadata bytes. -/
def serializeFCPayload (e : FCPayload) : List Nat :=
  e.descriptor :: (le64 e.payload.length ++ (e.payload ++ (le64 e.metadata.length ++ e.metadata)))

/-- Embedding of `bincode::serialize(&self.payload)` in `CannonLauncher::send`
(src/src/lib.rs line 165), where `self.payload : Option<FCPayload>`: bincode
writes a one-byte tag (0 for None, 1 for Some) followed by the value. -/
def serializeOptionFCPayload : Option FCPayload → List Nat
  | none => [0]
  | some e => 1 :: serializeFCPayload e

/-- Embedding of `bincode::deserialize::<FCPayload>(bytes)` as called in
`CannonLauncher::read_message` (src/src/lib.rs line 178): parse a descriptor
byte, a u64 payload length, that many payload bytes, a u64 metadata length,
that many metadata bytes; trailing bytes are permitted (bincode 1.x legacy
`deserialize` behaviour). `none` models a deserialization `Err`. -/
def deserializeFCPayload (bs : List Nat) : Option FCPayload :=
  match bs with
  | [] => none
  | d :: r1 =>
    match readU64 r1 with
    | none => none
    | some (plen, r2) =>
      match readBytes plen r2 with
      | none => none
      | some (p, r3) =>
        match readU64 r3 with
        | none => none
        | some (mlen, r4) =>
          match readBytes mlen r4 with
          | none => none
          | some (m, _) => some ⟨d, p, m⟩

/-- Modelled from the spec: the wire layout of section 4.1 / section 6 of the
specification, `descriptor (1 byte) || len(payload) (2 bytes, big-endian) ||
payload || len(metadata) (2 bytes, big-endian) || metadata`. This definition
follows the specification's words, not the source, and exists only to be
compared with `serializeOptionFCPayload`. -/
def specWireLayout (e : FCPayload) : List Nat :=
  e.descriptor :: ([e.payload.length / 256 % 256, e.payload.length % 256] ++
    (e.payload ++ ([e.metadata.length / 256 % 256, e.metadata.length % 256] ++ e.metadata)))

/-- Concrete envelope with a 65536-byte payload, one byte past the spec's
claimed 16-bit limit. -/
def bigEnvelope : FCPayload :=
  ⟨0, List.replicate 65536 0, []⟩

-- Transport model (`CannonLauncher`, src/src/lib.rs lines 125-182).

/-- Embedding of the payload-holding state of `CannonLauncher` (src/src/lib.rs
lines 127-131). The wrapped `TcpStream` and `BufReader` are modelled separately
by `BufState`; only the `payload: Option<FCPayload>` field affects `send`. -/
structure Launcher where
  payload : Option FCPayload
deriving DecidableEq, Repr

/-- Embedding of `CannonLauncher::with_stream` (lines 135-141): the launcher
starts with `payload: None`. -/
def withStreamLauncher : Launcher := ⟨none⟩

/-- Embedding of `CannonLauncher::set_payload` (lines 143-149). -/
def setPayload (_l : Launcher) (p : FCPayload) : Launcher :=
  ⟨some p⟩

/-- Embedding of `CannonLauncher::clear_payload` (lines 151-154). -/
def clearPayload (_l : Launcher) : Launcher :=
  ⟨none⟩

/-- Embedding of `CannonLauncher::send` (lines 164-169): it bincode-serializes
`self.payload : Option<FCPayload>` and writes all the bytes, then flushes.
The returned list is exactly the byte sequence put on the wire; underlying
stream I/O errors are outside the byte-level model, and serialization itself
cannot fail (no size limit is configured), so the function is total. -/
def sendBytes (l : Launcher) : List Nat :=
  serializeOptionFCPayload l.payload

/-- State of the `BufReader<TcpStream>` inside `CannonLauncher`: `buf` is the
reader's internal buffer, `stream` the bytes still available from the socket
before it closes. -/
structure BufState where
  buf : List Nat
  stream : List Nat
deriving DecidableEq, Repr

/-- Embedding of the bytes returned by `BufReader::fill_buf`: when the
internal buffer is non-empty it is returned as-is (nothing is consumed); when
it is empty, a read pulls the available stream bytes into the buffer (an empty
result models end-of-stream, which `fill_buf` reports as `Ok` with an empty
slice). -/
def fillBufBytes (s : BufState) : List Nat :=
  if s.buf = [] then s.stream else s.buf

/-- Reader state after the same `fill_buf` call: the returned bytes are now
buffered, and nothing is consumed. -/
def fillBufState (s : BufState) : BufState :=
  if s.buf = [] then ⟨s.stream, []⟩ else s

/-- Result of `CannonLauncher::read_message` (lines 175-181). The function
returns `Result<FCPayload, io::Error>`, but the only error it can return comes
from `fill_buf` itself (outside the byte-level model); a deserialization
failure is unwrapped, i.e. the thread panics, modelled by `panicked`. -/
inductive ReadResult where
  | ok (m : FCPayload) (s : BufState)
  | panicked
deriving DecidableEq, Repr

/-- Embedding of `CannonLauncher::read_message` (lines 175-181): `fill_buf`
the reader, then `bincode::deserialize::<FCPayload>` the buffered bytes and
unwrap the result. `consume` is never called, so the buffered bytes are never
marked as read. -/
def readMessage (s : BufState) : ReadResult :=
  match deserializeFCPayload (fillBufBytes s) with
  | some m => .ok m (fillBufState s)
  | none => .panicked

/-- Projection of a `ReadResult` to the decoded message, when any. -/
def getMsg : ReadResult → Option FCPayload
  | .ok m _ => some m
  | .panicked => none

-- Cipher model (`FCPayload::encrypt_payload` / `decode_encrypted_payload`,
-- src/src/lib.rs lines 62-97).

/-- Modelled from the spec: a keystream byte of the AES-256-GCM cipher (the
external `aes_gcm` crate, whose internals are not part of this repository).
Treated as an arbitrary executable function of key, nonce and position; the
theorems below rely only on the AEAD structure, never on this formula. -/
def keyStream (key nonce : List Nat) (i : Nat) : Nat :=
  (key.foldr (· + ·) 0 + 2 * nonce.foldr (· + ·) 0 + 3 * i) % 256

/-- Modelled from the spec: stream encryption/decryption, xor-ing each byte
with the keystream byte at its position (self-inverse, as a stream cipher is). -/
def xorStream (key nonce : List Nat) : Nat → List Nat → List Nat
  | _, [] => []
  | i, b :: bs => (b ^^^ keyStream key nonce i) :: xorStream key nonce (i + 1) bs

/-- Modelled from the spec: the 16-byte GCM authentication tag over a
ciphertext under a given key and nonce (sections 4.2 and 6 of the spec: the
payload carries a ciphertext plus 16-byte tag). An executable stand-in whose
only used property is that decrypt verifies exactly this tag. -/
def mkTag (key nonce ct : List Nat) : List Nat :=
  List.replicate 16
    ((key.foldr (· + ·) 0 + 2 * nonce.foldr (· + ·) 0 + ct.foldr (· + ·) 0 + ct.length) % 256)

/-- Modelled from the spec: `AesGcm::encrypt` of the `aes_gcm` crate —
ciphertext followed by the 16-byte authentication tag. -/
def aeadEncrypt (key nonce pt : List Nat) : List Nat :=
  xorStream key nonce 0 pt ++ mkTag key nonce (xorStream key nonce 0 pt)

/-- Modelled from the spec: `AesGcm::decrypt` of the `aes_gcm` crate — split
off the trailing 16-byte tag, verify it, and return the decrypted bytes;
`none` is the `aead::Error` returned when the tag does not verify (or the
input is shorter than a tag). -/
def aeadDecrypt (key nonce data : List Nat) : Option (List Nat) :=
  if 16 ≤ data.length then
    if data.drop (data.length - 16) = mkTag key nonce (data.take (data.length - 16)) then
      some (xorStream key nonce 0 (data.take (data.length - 16)))
    else none
  else none

/-- Embedding of `FCPayload::encrypt_payload` (src/src/lib.rs lines 62-77),
release build. The Rust signature takes `key: &[u8; 256]` and
`nonce: &[u8; 96]` (the only array shapes a caller can pass); the body calls
`AesGcm::<Aes256, U12>::new_from_slice(key).unwrap()`, which succeeds only for
a 32-byte slice, and `Nonce::from_slice(nonce)`, which succeeds only for a
12-byte slice — any other length makes the call panic, modelled by `none`.
On success the payload is replaced by the ciphertext+tag in place. Key and
nonce are modelled as byte lists so that the body's own length checks are
expressed, with the signature's 256/96 constraint stated as a hypothesis in
the theorems that concern it. -/
def encryptPayload (e : FCPayload) (key nonce : List Nat) : Option FCPayload :=
  if key.length = 32 then
    if nonce.length = 12 then
      some { e with payload := aeadEncrypt key nonce e.payload }
    else none
  else none

/-- Embedding of the decryption step of `FCPayload::decode_encrypted_payload`
(src/src/lib.rs lines 84-97): build the cipher from the key slice (panics
unless 32 bytes), take the nonce (panics unless 12 bytes), then
`cipher.decrypt(..).unwrap()` — a failed tag verification is also unwrapped,
i.e. a panic, so every failure path of the function is `none`; the function
never returns an error value. The envelope itself is taken by shared
reference and is never modified. The final generic
`bincode::deserialize::<P>` of the plaintext is type-parametric and outside
the byte-level model; the returned bytes are the decrypted payload. -/
def decodeEncryptedPayloadBytes (e : FCPayload) (key nonce : List Nat) : Option (List Nat) :=
  if key.length = 32 then
    if nonce.length = 12 then
      aeadDecrypt key nonce e.payload
    else none
  else none

-- Helper lemmas about the codec.

theorem le64_length (n : Nat) : (le64 n).length = 8 := by
  simp [le64]

theorem leVal_le64 (n : Nat) (h : n < 2 ^ 64) : leVal (le64 n) = n := by
  simp only [le64, leVal, List.foldr]
  omega

theorem readBytes_exact (w r : List Nat) (k : Nat) (h : w.length = k) :
    readBytes k (w ++ r) = some (w, r) := by
  subst h
  simp [readBytes, List.take_left, List.drop_left]

theorem readU64_le64 (n : Nat) (r : List Nat) (h : n < 2 ^ 64) :
    readU64 (le64 n ++ r) = some (n, r) := by
  simp only [readU64, readBytes_exact (le64 n) r 8 (le64_length n), leVal_le64 n h]

/-- Round trip of the `FCPayload`-level bincode codec itself (serialize the
struct, deserialize the struct): this holds, and isolates the send/receive
mismatch to the extra `Option` tag byte. -/
theorem deserialize_serializeFCPayload (e : FCPayload)
    (hp : e.payload.length < 2 ^ 64) (hm : e.metadata.length < 2 ^ 64) :
    deserializeFCPayload (serializeFCPayload e) = some e := by
  have hmeta : readBytes e.metadata.length (e.metadata ++ []) = some (e.metadata, []) :=
    readBytes_exact e.metadata [] e.metadata.length rfl
  rw [List.append_nil] at hmeta
  simp only [serializeFCPayload, deserializeFCPayload,
    readU64_le64 e.payload.length _ hp,
    readBytes_exact e.payload _ e.payload.length rfl,
    readU64_le64 e.metadata.length _ hm, hmeta]

-- Helper lemmas about the cipher model.

theorem xorStream_xorStream (key nonce : List Nat) (i : Nat) (bs : List Nat) :
    xorStream key nonce i (xorStream key nonce i bs) = bs := by
  induction bs generalizing i with
  | nil => rfl
  | cons b bs ih =>
    simp only [xorStream, ih]
    rw [Nat.xor_assoc, Nat.xor_self, Nat.xor_zero]

theorem xorStream_length (key nonce : List Nat) (i : Nat) (bs : List Nat) :
    (xorStream key nonce i bs).length = bs.length := by
  induction bs generalizing i with
  | nil => rfl
  | cons b bs ih => simp [xorStream, ih]

theorem aeadDecrypt_aeadEncrypt (key nonce pt : List Nat) :
    aeadDecrypt key nonce (aeadEncrypt key nonce pt) = some pt := by
  have hlen : (xorStream key nonce 0 pt ++ mkTag key nonce (xorStream key nonce 0 pt)).length =
      (xorStream key nonce 0 pt).length + 16 := by
    simp [mkTag]
  have hdrop : (xorStream key nonce 0 pt ++ mkTag key nonce (xorStream key nonce 0 pt)).drop
      ((xorStream key nonce 0 pt ++ mkTag key nonce (xorStream key nonce 0 pt)).length - 16) =
      mkTag key nonce (xorStream key nonce 0 pt) := by
    rw [hlen, Nat.add_sub_cancel, List.drop_left]
  have htake : (xorStream key nonce 0 pt ++ mkTag key nonce (xorStream key nonce 0 pt)).take
      ((xorStream key nonce 0 pt ++ mkTag key nonce (xorStream key nonce 0 pt)).length - 16) =
      xorStream key nonce 0 pt := by
    rw [hlen, Nat.add_sub_cancel, List.take_left]
  rw [aeadDecrypt, aeadEncrypt, if_pos (by rw [hlen]; omega)]
  rw [htake, hdrop, if_pos rfl, xorStream_xorStream]

theorem deserialize_nil : deserializeFCPayload [] = none := rfl

theorem serializeOptionFCPayload_some_length (e : FCPayload) :
    (serializeOptionFCPayload (some e)).length =
      18 + e.payload.length + e.metadata.length := by
  simp [serializeOptionFCPayload, serializeFCPayload, le64]
  omega

-- Claim theorems.

/-- Claim C1: the spec says decoding the bytes produced by `send` (as
`read_message` does on the peer) returns an Envelope equal to the original.
The code violates this: `send` serializes `Option<FCPayload>` (prepending a
one-byte `Some` tag) while `read_message` deserializes a bare `FCPayload`,
so for the envelope `{descriptor: 0, payload: [], metadata: []}` the peer
decodes `{descriptor: 1, payload: [], metadata: []}` (the tag byte becomes
the descriptor), and for `{descriptor: 0, payload: [1], metadata: []}` the
misaligned length field makes deserialization fail, so `read_message`
panics on its unwrap. -/
theorem c1_send_receive_roundtrip_fails :
    getMsg (readMessage ⟨[], sendBytes (setPayload withStreamLauncher ⟨0, [], []⟩)⟩) =
      some ⟨1, [], []⟩ ∧
    (⟨1, [], []⟩ : FCPayload) ≠ (⟨0, [], []⟩ : FCPayload) ∧
    getMsg (readMessage ⟨[], sendBytes (setPayload withStreamLauncher ⟨0, [1], []⟩)⟩) = none := by
  refine ⟨by decide, by decide, by decide⟩

/-- Claim C2: the spec says a stream that closes after 2 bytes of a frame
makes `receive` return `ReceiveError::ConnectionClosed`. The code instead
panics: `fill_buf` returns the 2 buffered bytes with `Ok`, and
`bincode::deserialize` fails and is unwrapped. Here the stream delivers the
first 2 bytes of a valid frame and then closes. -/
theorem c2_truncated_stream_panics :
    readMessage ⟨[], (sendBytes (setPayload withStreamLauncher ⟨5, [1, 2, 3], [4]⟩)).take 2⟩ =
      ReadResult.panicked := by
  decide

/-- Claim C3: the spec says a key that is not exactly 32 bytes (or a nonce
that is not exactly 12 bytes) makes the cipher calls fail with
`CipherError::InvalidKeyMaterial`. The code's signatures only admit a
256-byte key and a 96-byte nonce, and every such call panics (modelled by
`none`) inside `AesGcm::new_from_slice(key).unwrap()`, which requires a
32-byte slice; no `CipherError` value is ever returned. -/
theorem c3_key_material_panics (e : FCPayload) (key nonce : List Nat)
    (hk : key.length = 256) :
    encryptPayload e key nonce = none ∧ decodeEncryptedPayloadBytes e key nonce = none := by
  constructor
  · rw [encryptPayload, if_neg (by omega)]
  · rw [decodeEncryptedPayloadBytes, if_neg (by omega)]

/-- Witness for `c3_key_material_panics` at the only array shapes the Rust
signature admits: a 256-byte key and a 96-byte nonce. -/
theorem c3_key_material_panics_witness :
    encryptPayload ⟨0, [], []⟩ (List.replicate 256 0) (List.replicate 96 0) = none ∧
    decodeEncryptedPayloadBytes ⟨0, [], []⟩ (List.replicate 256 0) (List.replicate 96 0) = none :=
  c3_key_material_panics ⟨0, [], []⟩ (List.replicate 256 0) (List.replicate 96 0)
    (by rw [List.length_replicate])

/-- Claim C4: the spec says a failed tag verification makes payload
decryption return the distinguishable error `CipherError::AuthenticationFailed`
and never panic. In the code `cipher.decrypt(..).unwrap()` panics on a failed
verification (modelled by `none`): whenever the payload's trailing 16-byte
tag does not verify (or the payload is even shorter than a tag), the call
ends in a panic, never in an error value — though it indeed never returns
corrupted plaintext. -/
theorem c4_auth_failure_panics (e : FCPayload) (key nonce : List Nat)
    (hk : key.length = 32) (hn : nonce.length = 12)
    (htag : e.payload.drop (e.payload.length - 16) ≠
      mkTag key nonce (e.payload.take (e.payload.length - 16))) :
    decodeEncryptedPayloadBytes e key nonce = none := by
  rw [decodeEncryptedPayloadBytes, if_pos hk, if_pos hn, aeadDecrypt]
  by_cases h16 : 16 ≤ e.payload.length
  · rw [if_pos h16, if_neg htag]
  · rw [if_neg h16]

/-- Witness for `c4_auth_failure_panics`: the encryption of `[5]` under the
all-zero 32-byte key and 12-byte nonce is `[5] ++ 16 tag bytes`; flipping the
low bit of the ciphertext byte (5 becomes 4) invalidates the tag. -/
theorem c4_auth_failure_panics_witness :
    decodeEncryptedPayloadBytes ⟨0, 4 :: List.replicate 16 2, []⟩
      (List.replicate 32 0) (List.replicate 12 0) = none :=
  c4_auth_failure_panics ⟨0, 4 :: List.replicate 16 2, []⟩
    (List.replicate 32 0) (List.replicate 12 0) (by rw [List.length_replicate])
    (by rw [List.length_replicate]) (by decide)

/-- Claim C5: the spec's wire layout (descriptor byte, 2-byte big-endian
lengths) is not what `send` writes. The amended layout: the frame is the
bincode serialization of `Some(envelope)` — a `0x01` option-tag byte, the
descriptor byte, the payload length as 8 little-endian bytes, the payload,
the metadata length as 8 little-endian bytes, the metadata — and the
`FCPayload`-level codec round-trips on that layout. -/
theorem c5_layout (e : FCPayload)
    (hp : e.payload.length < 2 ^ 64) (hm : e.metadata.length < 2 ^ 64) :
    sendBytes (setPayload withStreamLauncher e) =
      1 :: e.descriptor ::
        (le64 e.payload.length ++ (e.payload ++ (le64 e.metadata.length ++ e.metadata))) ∧
    deserializeFCPayload (serializeFCPayload e) = some e :=
  ⟨rfl, deserialize_serializeFCPayload e hp hm⟩

/-- Witness for `c5_layout` at the envelope `{descriptor: 7, payload: [1],
metadata: [2]}`. -/
theorem c5_layout_witness :
    sendBytes (setPayload withStreamLauncher ⟨7, [1], [2]⟩) =
      1 :: 7 :: (le64 1 ++ ([1] ++ (le64 1 ++ [2]))) ∧
    deserializeFCPayload (serializeFCPayload ⟨7, [1], [2]⟩) = some ⟨7, [1], [2]⟩ :=
  c5_layout ⟨7, [1], [2]⟩ (by decide) (by decide)

/-- Counterexample to claim C5 as stated: at the envelope `{descriptor: 7,
payload: [1], metadata: [2]}` the bytes written by `send` differ from the
spec's `descriptor || 2-byte big-endian lengths` layout. -/
theorem c5_counterexample :
    serializeOptionFCPayload (some ⟨7, [1], [2]⟩) ≠ specWireLayout ⟨7, [1], [2]⟩ := by
  decide

/-- Claim C6: the spec says a payload of 65536 bytes or more is rejected at
encode time with `EncodeError::FieldTooLarge`. The code has no such limit:
bincode writes field lengths as 8-byte little-endian u64 values, so encoding
never rejects or truncates a field, whatever its size. -/
theorem c6_no_size_limit (e : FCPayload) :
    (serializeOptionFCPayload (some e)).length =
      18 + e.payload.length + e.metadata.length :=
  serializeOptionFCPayload_some_length e

theorem bigEnvelope_payload : bigEnvelope.payload = List.replicate 65536 0 := rfl

theorem bigEnvelope_metadata : bigEnvelope.metadata = [] := rfl

/-- Counterexample to claim C6 as stated: an envelope with a 65536-byte
payload encodes successfully — the frame has its full length (no rejection,
no truncation) and decodes back to exactly the same envelope. -/
theorem c6_counterexample :
    (serializeOptionFCPayload (some bigEnvelope)).length = 18 + 65536 ∧
    deserializeFCPayload (serializeFCPayload bigEnvelope) = some bigEnvelope := by
  constructor
  · rw [serializeOptionFCPayload_some_length, bigEnvelope_payload, bigEnvelope_metadata]
    rw [List.length_replicate, List.length_nil]
  · exact deserialize_serializeFCPayload _
      (by rw [bigEnvelope_payload, List.length_replicate]; norm_num)
      (by rw [bigEnvelope_metadata, List.length_nil]; norm_num)

/-- Claim C7: the spec says that for every payload and every valid 32-byte
key / 12-byte nonce pair, encrypting and then decrypting with the same key
and nonce returns the original payload bytes. The inverse does hold at the
level of the AEAD body (first conjunct, for any 32-byte key and 12-byte
nonce), but the code cannot perform it: the Rust signatures only admit a
256-byte key and a 96-byte nonce, and with those every `encrypt_payload`
call panics in `AesGcm::new_from_slice` (second conjunct), so no
encrypt/decrypt round trip can ever complete. -/
theorem c7_encrypt_decrypt_inverse (pt key nonce : List Nat)
    (hk : key.length = 32) (hn : nonce.length = 12) :
    (encryptPayload ⟨0, pt, []⟩ key nonce).bind
        (fun e' => decodeEncryptedPayloadBytes e' key nonce) = some pt ∧
    encryptPayload ⟨0, pt, []⟩ (List.replicate 256 0) (List.replicate 96 0) = none := by
  constructor
  · rw [encryptPayload, if_pos hk, if_pos hn, Option.some_bind]
    rw [decodeEncryptedPayloadBytes, if_pos hk, if_pos hn]
    exact aeadDecrypt_aeadEncrypt key nonce pt
  · rw [encryptPayload, if_neg (by rw [List.length_replicate]; omega)]

/-- Witness for `c7_encrypt_decrypt_inverse` at the payload `[1, 2]` and the
all-zero 32-byte key and 12-byte nonce. -/
theorem c7_encrypt_decrypt_inverse_witness :
    (encryptPayload ⟨0, [1, 2], []⟩ (List.replicate 32 0) (List.replicate 12 0)).bind
        (fun e' => decodeEncryptedPayloadBytes e' (List.replicate 32 0) (List.replicate 12 0)) =
      some [1, 2] ∧
    encryptPayload ⟨0, [1, 2], []⟩ (List.replicate 256 0) (List.replicate 96 0) = none :=
  c7_encrypt_decrypt_inverse [1, 2] (List.replicate 32 0) (List.replicate 12 0)
    (by rw [List.length_replicate]) (by rw [List.length_replicate])

/-- Claim C8: encrypting the payload modifies only the payload field — the
descriptor and metadata of the envelope are unchanged whenever the call
completes (and the decryption function takes the envelope by shared
reference, so it can modify nothing at all). -/
theorem c8_cipher_frame_effect (e : FCPayload) (key nonce : List Nat) (e' : FCPayload)
    (h : encryptPayload e key nonce = some e') :
    e'.descriptor = e.descriptor ∧ e'.metadata = e.metadata := by
  rw [encryptPayload] at h
  by_cases hk : key.length = 32
  · rw [if_pos hk] at h
    by_cases hn : nonce.length = 12
    · rw [if_pos hn] at h
      injection h with h
      subst h
      exact ⟨rfl, rfl⟩
    · rw [if_neg hn] at h
      exact Option.noConfusion h
  · rw [if_neg hk] at h
    exact Option.noConfusion h

/-- Witness for `c8_cipher_frame_effect`: encrypting the envelope
`{descriptor: 5, payload: [1], metadata: [2]}` under the all-zero 32-byte key
and 12-byte nonce yields ciphertext payload `[1]` with tag bytes `2`, and the
descriptor and metadata are untouched. -/
theorem c8_cipher_frame_effect_witness :
    (FCPayload.mk 5 (1 :: List.replicate 16 2) [2]).descriptor =
      (FCPayload.mk 5 [1] [2]).descriptor ∧
    (FCPayload.mk 5 (1 :: List.replicate 16 2) [2]).metadata =
      (FCPayload.mk 5 [1] [2]).metadata :=
  c8_cipher_frame_effect ⟨5, [1], [2]⟩ (List.replicate 32 0) (List.replicate 12 0)
    ⟨5, 1 :: List.replicate 16 2, [2]⟩ (by decide)

/-- Claim C9: `read_message` fills the reader's buffer but never consumes it,
so a second `read_message` on the state left by a successful first call
decodes the same leading bytes and returns the same message with the same
state. -/
theorem c9_read_message_idempotent (s : BufState) (m : FCPayload) (s' : BufState)
    (h : readMessage s = ReadResult.ok m s') :
    readMessage s' = ReadResult.ok m s' := by
  by_cases hb : s.buf = []
  · cases hdes : deserializeFCPayload s.stream with
    | none =>
      have : readMessage s = ReadResult.panicked := by
        simp only [readMessage, fillBufBytes, if_pos hb, hdes]
      rw [this] at h
      exact ReadResult.noConfusion h
    | some m0 =>
      have hrm : readMessage s = ReadResult.ok m0 ⟨s.stream, []⟩ := by
        simp only [readMessage, fillBufBytes, fillBufState, if_pos hb, hdes]
      rw [hrm] at h
      injection h with hm hs
      subst hm
      subst hs
      have hne : s.stream ≠ [] := by
        intro hnil
        rw [hnil, deserialize_nil] at hdes
        exact Option.noConfusion hdes
      simp only [readMessage, fillBufBytes, fillBufState, if_neg hne, hdes]
  · cases hdes : deserializeFCPayload s.buf with
    | none =>
      have : readMessage s = ReadResult.panicked := by
        simp only [readMessage, fillBufBytes, if_neg hb, hdes]
      rw [this] at h
      exact ReadResult.noConfusion h
    | some m0 =>
      have hrm : readMessage s = ReadResult.ok m0 s := by
        simp only [readMessage, fillBufBytes, fillBufState, if_neg hb, hdes]
      rw [hrm] at h
      injection h with hm hs
      subst hm
      subst hs
      simp only [readMessage, fillBufBytes, fillBufState, if_neg hb, hdes]

/-- Witness for `c9_read_message_idempotent`: a reader whose buffer already
holds the 17-byte frame of `{descriptor: 3, payload: [], metadata: []}`
returns that message and leaves its state unchanged, so the theorem applies
to its own output state. -/
theorem c9_read_message_idempotent_witness :
    readMessage ⟨3 :: List.replicate 16 0, []⟩ =
      ReadResult.ok ⟨3, [], []⟩ ⟨3 :: List.replicate 16 0, []⟩ :=
  c9_read_message_idempotent ⟨3 :: List.replicate 16 0, []⟩ ⟨3, [], []⟩
    ⟨3 :: List.replicate 16 0, []⟩ (by decide)

/-- Claim C10: a launcher fresh from `with_stream`, or one whose payload was
cleared with `clear_payload`, holds `payload: None`; `send` succeeds anyway,
writing the one-byte bincode encoding of `None` (the single byte 0), and the
peer's `bincode::deserialize::<FCPayload>` fails on that frame (so it does
not decode as a plain envelope). -/
theorem c10_send_none_payload (l : Launcher) :
    sendBytes withStreamLauncher = [0] ∧
    sendBytes (clearPayload l) = [0] ∧
    deserializeFCPayload [0] = none :=
  ⟨rfl, rfl, by decide⟩
